import Mathlib

/-!
Verification of the election-resolution engine of `src/main.py`
(Alternative-Vote evaluator).

The Python data structures are embedded shallowly:

* Python dicts become insertion-ordered association lists (`List (k × v)`);
  `dictGet` is `d[k]` / `d.get(k)`, `dictSet` is `d[k] = v` (update in place,
  append new keys at the end), which matches CPython's insertion-order
  semantics on which `max`/`min`/iteration in the source rely.
* The ballot structure `Dict[str, Dict[str, Dict[int, List[int]]]]`
  becomes `Parsed = List (String × RoleData)` with
  `RoleData = List (String × List (Nat × List Nat))`.
* The value `str | Tie | None` returned by `winner_for_role` becomes
  `Item = Option Res` with `Res.cand`/`Res.tie` (`none` is Python `None`).
* Python exceptions become an explicit `PyErr` value; stateful mutation of
  the exclusion dictionary is threaded explicitly, so the fallible stateful
  functions return `(Except PyErr α) × ExcMap`.
* The float `threshold = all_votes / 2` only ever takes part in the exact
  comparisons `count == threshold` and `score >= threshold`; these are
  embedded as the integer comparisons `2 * count = all_votes` and
  `2 * score ≥ all_votes`, which agree with the exact Python float
  semantics of dividing an int by 2.
* The unbounded `while` loop of `find_winners` is embedded with explicit
  fuel: `none` means the fuel ran out (no verdict), `some r` is the Python
  outcome (normal return or exception).
-/

/-- Outcome value produced by `winner_for_role`: a candidate name (`str`)
or a `Tie` (a `list` subclass holding the tied names). -/
inductive Res where
  | cand (name : String)
  | tie (names : List String)
deriving DecidableEq

/-- A value of Python type `str | Tie | None` (`none` is Python `None`). -/
abbrev Item := Option Res

/-- Python exceptions raised by the engine. -/
inductive PyErr where
  | valueError (msg : String)
  | keyError (key : String)
  | indexError
  | typeError
deriving DecidableEq

/-- Decidable equality of embedded Python outcomes (`Except` carries no
instance of its own). -/
instance instDecidableEqExcept {ε α : Type} [DecidableEq ε] [DecidableEq α] :
    DecidableEq (Except ε α) := fun x y =>
  match x, y with
  | .ok a, .ok b =>
    if h : a = b then isTrue (by rw [h]) else isFalse (fun hh => by cases hh; exact h rfl)
  | .error a, .error b =>
    if h : a = b then isTrue (by rw [h]) else isFalse (fun hh => by cases hh; exact h rfl)
  | .ok _, .error _ => isFalse (fun hh => by cases hh)
  | .error _, .ok _ => isFalse (fun hh => by cases hh)

/-- Rank → voters who ranked the candidate at that rank
(the inner `Dict[int, List[int]]`). -/
abbrev RankMap := List (Nat × List Nat)

/-- Candidate → rank map for one role (the `data` argument of
`winner_for_role`). -/
abbrev RoleData := List (String × RankMap)

/-- Role → role data (the `parsed` spreadsheet structure). -/
abbrev Parsed := List (String × RoleData)

/-- Exclusion dictionary: role → list of excluded values.  The Python lists
hold whatever `determine_winner` appends, so entries are `Item`s, not bare
strings. -/
abbrev ExcMap := List (String × List Item)

/-- Winners dictionary: role → the `loop_winners` list for that role. -/
abbrev Winners := List (String × List Item)

/-- Python `d[k]` / `d.get(k)` on an insertion-ordered dict. -/
def dictGet {α β : Type} [DecidableEq α] : List (α × β) → α → Option β
  | [], _ => none
  | (k, v) :: rest, key => if k = key then some v else dictGet rest key

/-- Python `d[k] = v`: update the existing entry in place, otherwise append
the new key at the end (CPython insertion-order semantics). -/
def dictSet {α β : Type} [DecidableEq α] : List (α × β) → α → β → List (α × β)
  | [], key, v => [(key, v)]
  | (k, w) :: rest, key, v =>
    if k = key then (k, v) :: rest else (k, w) :: dictSet rest key v

/-- Python `total_votes[fc] = total_votes.get(fc, 0) + 1` (the two-branch
increment in `winner_for_role`). -/
def dictIncr : List (String × Nat) → String → List (String × Nat)
  | [], key => [(key, 1)]
  | (k, v) :: rest, key =>
    if k = key then (k, v + 1) :: rest else (k, v) :: dictIncr rest key

/-- `sum(total_votes.values())`. -/
def sumVals : List (String × Nat) → Nat
  | [] => 0
  | p :: rest => p.2 + sumVals rest

/-- Python `max(items, key=lambda x: x[1])` on a nonempty dict: the first
item with the maximal value. -/
def maxBySndVal (p : String × Nat) (rest : List (String × Nat)) : String × Nat :=
  rest.foldl (fun a x => if x.2 > a.2 then x else a) p

/-- Python `min(items, key=lambda x: x[1])` on a nonempty dict: the first
item with the minimal value. -/
def minBySndVal (p : String × Nat) (rest : List (String × Nat)) : String × Nat :=
  rest.foldl (fun a x => if x.2 < a.2 then x else a) p

/-- The `choices` list built inside `get_first_choice_helper`: the pairs
`(name, r)` with `r ≤ round`, `name` a non-excluded candidate (a Python
comparison `name == entry` of a `str` with a `Tie` or `None` entry of the
exclusion list is `False`, which the `Item` membership test reproduces),
and the voter listed at rank `r` for `name` — in loop order (`r` outer,
candidates inner). -/
def gfchChoices (voter : Nat) (round : Nat) (votes : RoleData)
    (excluded : List Item) : List (String × Nat) :=
  ((List.range' 1 round).map (fun r =>
    (votes.filter (fun p => decide (some (Res.cand p.1) ∉ excluded))).filterMap (fun p =>
      match dictGet p.2 r with
      | some voters => if voter ∈ voters then some (p.1, r) else none
      | none => none))).flatten

/-- `get_first_choice_helper(voter, round, votes, excluded)` from
`src/main.py`: the earliest-rank (≤ `round`) non-excluded candidate the
voter ranked, or `None` (`min(choices, key=lambda x: x[1])` is the first
pair with minimal rank). -/
def get_first_choice_helper (voter : Nat) (round : Nat) (votes : RoleData)
    (excluded : List Item) : Option String :=
  match gfchChoices voter round votes excluded with
  | [] => none
  | c :: cs => some ((cs.foldl (fun a x => if x.2 < a.2 then x else a) c).1)

/-- The per-round tabulation loop of `winner_for_role` (`for row in
range(0, rows): ...`), building `total_votes`. -/
def tabulate (data : RoleData) (rows : Nat) (rnd : Nat)
    (excluded : List Item) : List (String × Nat) :=
  (List.range rows).foldl (fun tv row =>
    match get_first_choice_helper row rnd data excluded with
    | none => tv
    | some fc => dictIncr tv fc) []

/-- `max(fields.keys(), default=0)`. -/
def maxKeys (fields : RankMap) : Nat :=
  (fields.map Prod.fst).foldl Nat.max 0

/-- The round loop `for rnd in range(1, maxRank + 1)` of `winner_for_role`,
over the list of remaining round numbers.  Each round either
* raises `ValueError` when `max` is applied to an empty `total_votes`,
* returns a `Tie` when two or more candidates sit exactly at the threshold,
* returns the leader when it meets the threshold, or
* eliminates the lowest-scoring candidate (appending to `excluded[role]`,
  a `KeyError` if the role key is absent) and continues.
Falling off the end of the loop is Python's implicit `return None`. -/
def run_rounds (role : String) (data : RoleData) (rows : Nat) :
    List Nat → ExcMap → (Except PyErr (Option Res)) × ExcMap
  | [], exc => (.ok none, exc)
  | rnd :: rest, exc =>
    let excList := (dictGet exc role).getD []
    match tabulate data rows rnd excList with
    | [] => (.error (.valueError "max() arg is an empty sequence"), exc)
    | p :: ps =>
      let person := (maxBySndVal p ps).1
      let score := (maxBySndVal p ps).2
      let all_votes := sumVals (p :: ps)
      let two_winners := ((p :: ps).filter (fun q => 2 * q.2 = all_votes)).map Prod.fst
      if two_winners.length > 1 then (.ok (some (.tie two_winners)), exc)
      else if 2 * score ≥ all_votes then (.ok (some (.cand person)), exc)
      else
        let min_person := (minBySndVal p ps).1
        match dictGet exc role with
        | none => (.error (.keyError role), exc)
        | some lst =>
          run_rounds role data rows rest (dictSet exc role (lst ++ [some (.cand min_person)]))

/-- `winner_for_role(role, data, rows, excluded)` from `src/main.py`.
`match len(data) - len(excluded.get(role, [])):` is plain Python int
subtraction, embedded over `Int`.  The degenerate `case 0`/`case 1`
branches return without touching the exclusion dictionary; otherwise the
round loop runs for rounds `1 .. max rank present in the data` (the outer
`max` raising `ValueError` on an empty generator when `data` is empty). -/
def winner_for_role (role : String) (data : RoleData) (rows : Nat)
    (exc : ExcMap) : (Except PyErr (Option Res)) × ExcMap :=
  let excList := (dictGet exc role).getD []
  if (data.length : Int) - (excList.length : Int) = 0 then
    (.ok (some (.cand "RON")), exc)
  else if (data.length : Int) - (excList.length : Int) = 1 then
    match data.filter (fun p => decide (some (Res.cand p.1) ∉ excList)) with
    | [] => (.error .indexError, exc)
    | q :: _ => (.ok (some (.cand q.1)), exc)
  else
    match data with
    | [] => (.error (.valueError "max() arg is an empty sequence"), exc)
    | _ :: _ =>
      let maxR := (data.map (fun p => maxKeys p.2)).foldl Nat.max 0
      run_rounds role data rows (List.range' 1 maxR) exc

/-- The seat loop `for i in range(winners_needed)` of `determine_winner`:
before each call the exclusion list for the role is rebound to
`excluded[role] + loop_winners` (or a copy of `loop_winners` when the key
is absent), then `winner_for_role` runs and its result is appended to
`loop_winners`. -/
def seat_loop (role : String) (data : RoleData) (rows : Nat) :
    Nat → List Item → ExcMap → (Except PyErr (List Item)) × ExcMap
  | 0, lw, exc => (.ok lw, exc)
  | n + 1, lw, exc =>
    let exc1 :=
      match dictGet exc role with
      | some lst => dictSet exc role (lst ++ lw)
      | none => dictSet exc role lw
    match winner_for_role role data rows exc1 with
    | (.error e, exc2) => (.error e, exc2)
    | (.ok w, exc2) => seat_loop role data rows n (lw ++ [w]) exc2

/-- The role loop of `determine_winner`, threading the (shared, mutable)
exclusion dictionary. -/
def dw_go (extra_roles : List (String × Nat)) (rows : Nat) :
    Parsed → Winners → ExcMap → (Except PyErr Winners) × ExcMap
  | [], winners, exc => (.ok winners, exc)
  | (role, data) :: rest, winners, exc =>
    let n := (dictGet extra_roles role).getD 1
    match seat_loop role data rows n [] exc with
    | (.error e, exc1) => (.error e, exc1)
    | (.ok lws, exc1) => dw_go extra_roles rows rest (dictSet winners role lws) exc1

/-- `determine_winner(parsed, extra_roles, rows, excluded)` from
`src/main.py`.  The exclusion dictionary argument is threaded explicitly
(in Python it is mutated in place; `find_winners` passes the shared
default dict on its first call). -/
def determine_winner (parsed : Parsed) (extra_roles : List (String × Nat))
    (rows : Nat) (exc : ExcMap) : (Except PyErr Winners) × ExcMap :=
  dw_go extra_roles rows parsed [] exc

/-- `[item for sublist in winners.values() for item in sublist]`. -/
def allWinners (w : Winners) : List Item :=
  (w.map Prod.snd).flatten

/-- `list.count` over `Item`s (Python `==`: `str` vs `Tie`/`None` is
`False`, two `Tie`s compare as lists). -/
def countItem (x : Item) : List Item → Nat
  | [] => 0
  | y :: rest => (if y = x then 1 else 0) + countItem x rest

/-- The value is a `Tie` (an unhashable `list` subclass: using it as a dict
key raises `TypeError`). -/
def isTieItem : Item → Bool
  | some (Res.tie _) => true
  | _ => false

/-- The dict comprehension of `wins_twice_helper`, processed in generator
order.  A qualifying `Tie` key is unhashable in Python and raises
`TypeError` when inserted. -/
def wt_go (w : Winners) (all : List Item) :
    List Item → List (Item × List String) → Except PyErr (List (Item × List String))
  | [], acc => .ok acc
  | name :: rest, acc =>
    if countItem name all > 1 ∧ name ≠ some (Res.cand "RON") then
      if isTieItem name then .error .typeError
      else
        wt_go w all rest
          (dictSet acc name ((w.filter (fun p => decide (name ∈ p.2))).map Prod.fst))
    else wt_go w all rest acc

/-- `wins_twice_helper(winners)` from `src/main.py`: the conflict map from
each non-`"RON"` value appearing more than once in the flattened winners
to the roles whose winner lists contain it. -/
def wins_twice_helper (w : Winners) : Except PyErr (List (Item × List String)) :=
  wt_go w (allWinners w) (allWinners w) []

/-- `str(x)` as used by the f-string in the missing-preference error. -/
def joinAnd : List String → String
  | [] => ""
  | [s] => s
  | s :: rest => s ++ " and " ++ joinAnd rest

/-- Python `str` of an `Item` (`Tie.__str__` is `"TIE: a and b"`). -/
def itemRepr : Item → String
  | some (Res.cand s) => s
  | some (Res.tie l) => "TIE: " ++ joinAnd l
  | none => "None"

/-- Python `name.strip()`: drop whitespace from both ends (embedded over
the character list so that it evaluates in the kernel). -/
def pyStrip (s : String) : String :=
  ⟨(((s.toList.dropWhile Char.isWhitespace).reverse.dropWhile Char.isWhitespace).reverse)⟩

/-- Lookup of a conflict-map key in the first-choice table: only a plain
string key can be present (Python `name in first_choices`). -/
def itemKeyInFc (fc : List (String × String)) : Item → Option String
  | some (Res.cand s) => dictGet fc s
  | _ => none

/-- The inner `for role in roles` loop of `find_winners` building the new
exclusion dictionary for one conflicted candidate. -/
def addExclusions (exc : ExcMap) (roles : List String) (first_choice : String)
    (nm : String) : ExcMap :=
  roles.foldl (fun e role =>
    if role = first_choice then e
    else
      match dictGet e role with
      | none => dictSet e role [some (Res.cand nm)]
      | some lst => dictSet e role (lst ++ [some (Res.cand nm)])) exc

/-- The string payload of a plain-candidate item; only ever used on the
branch where `itemKeyInFc` returned `some`, which forces a `Res.cand`. -/
def itemStr : Item → String
  | some (Res.cand s) => s
  | _ => ""

/-- The `for name, roles in invalid.items()` loop of `find_winners`:
raises `ValueError(f"Role {name} not found in first_choices.txt.")` for a
conflicted name absent from the first-choice table (for a plain string
key, `itemRepr name` is the string itself), otherwise excludes the
stripped name from every conflicted role other than its first choice. -/
def be_go (fc : List (String × String)) :
    List (Item × List String) → ExcMap → Except PyErr ExcMap
  | [], exc => .ok exc
  | (name, roles) :: rest, exc =>
    match itemKeyInFc fc name with
    | none => .error (.valueError ("Role " ++ itemRepr name ++ " not found in first_choices.txt."))
    | some first_choice =>
      be_go fc rest (addExclusions exc roles first_choice (pyStrip (itemStr name)))

/-- The exclusion dictionary built by one conflict-resolution pass of
`find_winners` from the conflict map `invalid`. -/
def build_excluded (invalid : List (Item × List String))
    (fc : List (String × String)) : Except PyErr ExcMap :=
  be_go fc invalid []

/-- The `while invalid := wins_twice_helper(winners)` loop of
`find_winners`, with explicit fuel (`none` = no verdict within the fuel;
the Python loop is unbounded). -/
def find_winners_aux (parsed : Parsed) (fc : List (String × String))
    (extra : List (String × Nat)) (rows : Nat) :
    Nat → Winners → Option (Except PyErr Winners)
  | 0, _ => none
  | fuel + 1, w =>
    match wins_twice_helper w with
    | .error e => some (.error e)
    | .ok [] => some (.ok w)
    | .ok (i :: is) =>
      match build_excluded (i :: is) fc with
      | .error e => some (.error e)
      | .ok exc =>
        match determine_winner parsed extra rows exc with
        | (.error e, _) => some (.error e)
        | (.ok w1, _) => find_winners_aux parsed fc extra rows fuel w1

/-- `find_winners(parsed, first_choices, extra_roles, rows)` from
`src/main.py`.  `D` is the state of `determine_winner`'s mutable default
`excluded={}` dict, which the first (default-argument) call reads and
mutates; on a fresh interpreter it is `[]`, and the returned `ExcMap` is
its state after the call, which a second invocation of `find_winners` in
the same process would observe. -/
def find_winners (D : ExcMap) (fuel : Nat) (parsed : Parsed)
    (fc : List (String × String)) (extra : List (String × Nat)) (rows : Nat) :
    Option (Except PyErr Winners) × ExcMap :=
  match determine_winner parsed extra rows D with
  | (.error e, D1) => (some (.error e), D1)
  | (.ok w, D1) => (find_winners_aux parsed fc extra rows fuel w, D1)

/-- Winners of pass `n` of `find_winners`'s conflict-resolution loop on a
fresh interpreter (pass `0` is the initial `determine_winner` call with
the empty default dict). -/
def pass_winners (parsed : Parsed) (fc : List (String × String))
    (extra : List (String × Nat)) (rows : Nat) : Nat → Except PyErr Winners
  | 0 => (determine_winner parsed extra rows []).1
  | n + 1 =>
    match pass_winners parsed fc extra rows n with
    | .error e => .error e
    | .ok w =>
      match wins_twice_helper w with
      | .error e => .error e
      | .ok inv =>
        match build_excluded inv fc with
        | .error e => .error e
        | .ok exc => (determine_winner parsed extra rows exc).1

/-- The conflict-exclusion dictionary `find_winners` builds after pass `n`
(the `excluded` dict used for pass `n + 1`). -/
def pass_conflict_exc (parsed : Parsed) (fc : List (String × String))
    (extra : List (String × Nat)) (rows : Nat) (n : Nat) : Except PyErr ExcMap :=
  match pass_winners parsed fc extra rows n with
  | .error e => .error e
  | .ok w =>
    match wins_twice_helper w with
    | .error e => .error e
    | .ok inv => build_excluded inv fc

/-- The exclusion list a dictionary associates to a role (`.get(role, [])`). -/
def excLookup (exc : ExcMap) (role : String) : List Item :=
  (dictGet exc role).getD []

/-- Spec-side predicate: `voter` ranked the non-excluded candidate `name`
at rank `r ≤ round` in this role's data. -/
def eligVote (votes : RoleData) (excluded : List Item) (voter round : Nat)
    (name : String) (r : Nat) : Prop :=
  1 ≤ r ∧ r ≤ round ∧ some (Res.cand name) ∉ excluded ∧
    ∃ fields, (name, fields) ∈ votes ∧ ∃ vs, dictGet fields r = some vs ∧ voter ∈ vs

/-- The eligible (non-excluded) candidates of a role, in data order. -/
def eligibleCands (data : RoleData) (excList : List Item) : RoleData :=
  data.filter (fun p => decide (some (Res.cand p.1) ∉ excList))

/-- Substring test on character lists (used to state what an error message
does and does not report). -/
def charsLeadWith : List Char → List Char → Bool
  | [], _ => true
  | _ :: _, [] => false
  | c :: cs, d :: ds => c = d && charsLeadWith cs ds

/-- `sub` occurs as a contiguous substring of `l`. -/
def charsContain (sub : List Char) : List Char → Bool
  | [] => charsLeadWith sub []
  | d :: ds => charsLeadWith sub (d :: ds) || charsContain sub ds

/-- The message `msg` mentions `sub` as a substring. -/
def strMentions (msg sub : String) : Bool :=
  charsContain sub.toList msg.toList

/-- An outcome item assigns candidate `c` (as a plain winner, or inside a
tie marker — the reading the original claim requires). -/
def itemMentions (c : String) : Item → Bool
  | some (Res.cand s) => s = c
  | some (Res.tie l) => decide (c ∈ l)
  | none => false

/-- The roles whose outcome lists assign candidate `c`, counting tie-marker
contents. -/
def rolesMentioning (w : Winners) (c : String) : List String :=
  (w.filter (fun p => p.2.any (itemMentions c))).map Prod.fst

/-! ### Concrete inputs used to separate claims from the code's behaviour -/

/-- Role data on which round 1 has no majority and no exact tie
(A = 2, B = 2, C = 1 of 5) while the maximal rank present is 1, so the
round loop is exhausted after one elimination. -/
def exhaustData : RoleData := [("A", [(1, [0, 1])]), ("B", [(1, [2, 3])]), ("C", [(1, [4])])]

/-- One-role election in which C is eliminated in round 1 and B wins in
round 2; the elimination of C survives in `determine_winner`'s mutable
default dict after the run. -/
def leakParsed : Parsed :=
  [("R", [("A", [(1, [0, 1])]), ("B", [(1, [2, 3]), (2, [4])]), ("C", [(1, [4])])])]

/-- Two-role election: Role1 ends in an exact tie between X and Y, and X
also wins Role2 outright. -/
def tieParsed : Parsed :=
  [("Role1", [("X", [(1, [0])]), ("Y", [(1, [1])])]), ("Role2", [("X", [(1, [0])])])]

/-- Three-role election driving two conflict-resolution passes: X wins R1
and R2 (first choice R1), then Y, promoted in R2, also holds R3 (first
choice R3). -/
def resetParsed : Parsed :=
  [("R1", [("X", [(1, [0])])]),
   ("R2", [("X", [(1, [0, 1])]), ("Y", [(1, [2])])]),
   ("R3", [("Y", [(1, [0])])])]

/-- First-choice table for `resetParsed`. -/
def resetFc : List (String × String) := [("X", "R1"), ("Y", "R3")]

/-- Two-role election in which Sam wins both roles but has no entry in the
first-choice table. -/
def samParsed : Parsed :=
  [("President", [("Sam", [(1, [0])])]), ("Secretary", [("Sam", [(1, [0])])])]

/-! ### Basic dictionary lemmas -/

theorem dictGet_dictSet_self {α β : Type} [DecidableEq α] (d : List (α × β)) (k : α) (v : β) :
    dictGet (dictSet d k v) k = some v := by
  induction d with
  | nil => simp [dictGet, dictSet]
  | cons p rest ih =>
    obtain ⟨k1, v1⟩ := p
    by_cases h : k1 = k <;> simp [dictGet, dictSet, h, ih]

theorem dictGet_dictSet_other {α β : Type} [DecidableEq α] (d : List (α × β)) (k k' : α)
    (v : β) (h : k' ≠ k) : dictGet (dictSet d k v) k' = dictGet d k' := by
  have h' : ¬ (k = k') := fun hh => h hh.symm
  induction d with
  | nil => simp [dictGet, dictSet, h']
  | cons p rest ih =>
    obtain ⟨k1, v1⟩ := p
    by_cases h1 : k1 = k
    · subst h1
      simp [dictGet, dictSet, h']
    · simp [dictGet, dictSet, h1, ih]

theorem excLookup_dictSet_self (exc : ExcMap) (role : String) (l : List Item) :
    excLookup (dictSet exc role l) role = l := by
  simp [excLookup, dictGet_dictSet_self]

theorem excLookup_dictSet_other (exc : ExcMap) (role r : String) (l : List Item)
    (h : r ≠ role) : excLookup (dictSet exc role l) r = excLookup exc r := by
  simp [excLookup, dictGet_dictSet_other _ _ _ _ h]

/-! ### Growth of the exclusion dictionary -/

theorem run_rounds_extends (role : String) (data : RoleData) (rows : Nat) :
    ∀ (rounds : List Nat) (exc : ExcMap) (r : String),
      ∃ t, excLookup (run_rounds role data rows rounds exc).2 r = excLookup exc r ++ t := by
  intro rounds
  induction rounds with
  | nil => intro exc r; exact ⟨[], by simp [run_rounds]⟩
  | cons rnd rest ih =>
    intro exc r
    rw [run_rounds]
    cases htv : tabulate data rows rnd ((dictGet exc role).getD []) with
    | nil => exact ⟨[], by simp⟩
    | cons p ps =>
      dsimp only
      split
      · exact ⟨[], by simp⟩
      · split
        · exact ⟨[], by simp⟩
        · cases hd : dictGet exc role with
          | none => exact ⟨[], by simp⟩
          | some lst =>
            dsimp only
            obtain ⟨t, ht⟩ := ih (dictSet exc role
              (lst ++ [some (Res.cand (minBySndVal p ps).1)])) r
            by_cases hr : r = role
            · subst hr
              refine ⟨[some (Res.cand (minBySndVal p ps).1)] ++ t, ?_⟩
              rw [ht, excLookup_dictSet_self]
              simp [excLookup, hd]
            · refine ⟨t, ?_⟩
              rw [ht, excLookup_dictSet_other _ _ _ _ hr]

theorem run_rounds_other_roles (role : String) (data : RoleData) (rows : Nat) :
    ∀ (rounds : List Nat) (exc : ExcMap) (r : String), r ≠ role →
      excLookup (run_rounds role data rows rounds exc).2 r = excLookup exc r := by
  intro rounds
  induction rounds with
  | nil => intro exc r _; simp [run_rounds]
  | cons rnd rest ih =>
    intro exc r hr
    rw [run_rounds]
    cases htv : tabulate data rows rnd ((dictGet exc role).getD []) with
    | nil => simp
    | cons p ps =>
      dsimp only
      split
      · simp
      · split
        · simp
        · cases hd : dictGet exc role with
          | none => simp
          | some lst =>
            dsimp only
            rw [ih _ r hr, excLookup_dictSet_other _ _ _ _ hr]

theorem excLookup_extends_trans {e1 e2 e3 : ExcMap} {r : String}
    (h1 : ∃ t, excLookup e2 r = excLookup e1 r ++ t)
    (h2 : ∃ t, excLookup e3 r = excLookup e2 r ++ t) :
    ∃ t, excLookup e3 r = excLookup e1 r ++ t := by
  obtain ⟨t1, h1⟩ := h1
  obtain ⟨t2, h2⟩ := h2
  exact ⟨t1 ++ t2, by rw [h2, h1, List.append_assoc]⟩

theorem dictSet_append_extends (exc : ExcMap) (role : String) (lst u : List Item)
    (hd : excLookup exc role = lst) (r : String) :
    ∃ t, excLookup (dictSet exc role (lst ++ u)) r = excLookup exc r ++ t := by
  by_cases hr : r = role
  · subst hr
    exact ⟨u, by rw [excLookup_dictSet_self, hd]⟩
  · exact ⟨[], by rw [excLookup_dictSet_other _ _ _ _ hr]; simp⟩

theorem winner_for_role_extends (role : String) (data : RoleData) (rows : Nat)
    (exc : ExcMap) (r : String) :
    ∃ t, excLookup (winner_for_role role data rows exc).2 r = excLookup exc r ++ t := by
  rw [winner_for_role.eq_def]
  dsimp only
  split
  · exact ⟨[], by simp⟩
  · split
    · split
      · exact ⟨[], by simp⟩
      · exact ⟨[], by simp⟩
    · cases data with
      | nil => exact ⟨[], by simp⟩
      | cons q qs => exact run_rounds_extends role (q :: qs) rows _ exc r

theorem winner_for_role_other_roles (role : String) (data : RoleData) (rows : Nat)
    (exc : ExcMap) (r : String) (hr : r ≠ role) :
    excLookup (winner_for_role role data rows exc).2 r = excLookup exc r := by
  rw [winner_for_role.eq_def]
  dsimp only
  split
  · rfl
  · split
    · split
      · rfl
      · rfl
    · cases data with
      | nil => rfl
      | cons q qs => exact run_rounds_other_roles role (q :: qs) rows _ exc r hr

theorem seat_loop_extends (role : String) (data : RoleData) (rows : Nat) :
    ∀ (n : Nat) (lw : List Item) (exc : ExcMap) (r : String),
      ∃ t, excLookup (seat_loop role data rows n lw exc).2 r = excLookup exc r ++ t := by
  intro n
  induction n with
  | zero => intro lw exc r; exact ⟨[], by simp [seat_loop]⟩
  | succ m ih =>
    intro lw exc r
    rw [seat_loop]
    cases hd : dictGet exc role with
    | none =>
      have h1 : ∀ s, ∃ u, excLookup (dictSet exc role lw) s = excLookup exc s ++ u := by
        intro s
        have := dictSet_append_extends exc role [] lw (by simp [excLookup, hd]) s
        simpa using this
      cases hw : winner_for_role role data rows (dictSet exc role lw) with
      | mk res exc2 =>
        have h2 : ∀ s, ∃ u, excLookup exc2 s = excLookup exc s ++ u := by
          intro s
          refine excLookup_extends_trans (h1 s) ?_
          have := winner_for_role_extends role data rows (dictSet exc role lw) s
          rwa [hw] at this
        cases res with
        | error e => exact h2 r
        | ok w => exact excLookup_extends_trans (h2 r) (ih (lw ++ [w]) exc2 r)
    | some lst =>
      have h1 : ∀ s, ∃ u,
          excLookup (dictSet exc role (lst ++ lw)) s = excLookup exc s ++ u := by
        intro s
        exact dictSet_append_extends exc role lst lw (by simp [excLookup, hd]) s
      cases hw : winner_for_role role data rows (dictSet exc role (lst ++ lw)) with
      | mk res exc2 =>
        have h2 : ∀ s, ∃ u, excLookup exc2 s = excLookup exc s ++ u := by
          intro s
          refine excLookup_extends_trans (h1 s) ?_
          have := winner_for_role_extends role data rows (dictSet exc role (lst ++ lw)) s
          rwa [hw] at this
        cases res with
        | error e => exact h2 r
        | ok w => exact excLookup_extends_trans (h2 r) (ih (lw ++ [w]) exc2 r)

theorem dw_go_extends (extra : List (String × Nat)) (rows : Nat) :
    ∀ (parsed : Parsed) (winners : Winners) (exc : ExcMap) (r : String),
      ∃ t, excLookup (dw_go extra rows parsed winners exc).2 r = excLookup exc r ++ t := by
  intro parsed
  induction parsed with
  | nil => intro winners exc r; exact ⟨[], by simp [dw_go]⟩
  | cons p rest ih =>
    intro winners exc r
    obtain ⟨role, data⟩ := p
    rw [dw_go]
    cases hs : seat_loop role data rows ((dictGet extra role).getD 1) [] exc with
    | mk res exc1 =>
      have h1 : ∀ s, ∃ u, excLookup exc1 s = excLookup exc s ++ u := by
        intro s
        have := seat_loop_extends role data rows ((dictGet extra role).getD 1) [] exc s
        rwa [hs] at this
      cases res with
      | error e => exact h1 r
      | ok lws => exact excLookup_extends_trans (h1 r) (ih (dictSet winners role lws) exc1 r)

/-! ### C3: exclusion growth within one pass, reset between passes -/

/-- C3 (amended): within a single resolution pass, exclusion sets only ever
grow — every exclusion list `determine_winner` hands back extends the list
it was given (eliminations and seat winners are appended, nothing is
removed).  Between conflict-resolution passes, however, `find_winners`
rebuilds the exclusion dictionary from scratch (see the counterexample). -/
theorem determine_winner_exclusions_grow_within_pass
    (parsed : Parsed) (extra : List (String × Nat)) (rows : Nat)
    (exc : ExcMap) (r : String) :
    ∃ t, excLookup (determine_winner parsed extra rows exc).2 r = excLookup exc r ++ t :=
  dw_go_extends extra rows parsed [] exc r

/-- C3 (counterexample to the claim as stated): on `resetParsed`, pass 1
excludes X from R2, a further pass is triggered (the conflict map of pass 1
is nonempty), yet the exclusion dictionary built for pass 2 no longer
contains X for R2 — exclusion sets are reset, not persistent, across
conflict-resolution passes of one `find_winners` invocation. -/
theorem conflict_exclusions_reset_between_passes :
    pass_conflict_exc resetParsed resetFc [] 3 0 = .ok [("R2", [some (Res.cand "X")])]
    ∧ pass_conflict_exc resetParsed resetFc [] 3 1 = .ok [("R2", [some (Res.cand "Y")])]
    ∧ some (Res.cand "X") ∈ excLookup [("R2", [some (Res.cand "X")])] "R2"
    ∧ some (Res.cand "X") ∉ excLookup [("R2", [some (Res.cand "Y")])] "R2" := by
  refine ⟨by decide, by decide, by decide, by decide⟩

/-! ### C10: winner_for_role's mutation of the exclusion dictionary -/

/-- C10: `winner_for_role` only appends to its role's entry of the caller's
exclusion dictionary: the returned dictionary extends the given one on
every role (entries present at call time are never removed), every role
other than the resolved one is untouched, and the seat loop of
`determine_winner` preserves the accumulated exclusions from one seat to
the next, so candidates eliminated while resolving one seat stay excluded
for later seats of a multi-seat role. -/
theorem winner_for_role_exclusion_mutation (role : String) (data : RoleData)
    (rows : Nat) (exc : ExcMap) :
    ((∀ r, ∃ t, excLookup (winner_for_role role data rows exc).2 r = excLookup exc r ++ t)
      ∧ ∀ r, r ≠ role → excLookup (winner_for_role role data rows exc).2 r = excLookup exc r)
    ∧ ∀ (n : Nat) (lw : List Item) (r : String),
        ∃ t, excLookup (seat_loop role data rows n lw exc).2 r = excLookup exc r ++ t :=
  ⟨⟨fun r => winner_for_role_extends role data rows exc r,
    fun r hr => winner_for_role_other_roles role data rows exc r hr⟩,
   fun n lw r => seat_loop_extends role data rows n lw exc r⟩

/-- Concrete instantiation of `winner_for_role_exclusion_mutation`: on
`exhaustData` (an elimination occurs), the "S" entry is untouched and the
"R" entry is extended. -/
theorem winner_for_role_exclusion_mutation_witness :
    excLookup (winner_for_role "R" exhaustData 5 [("R", []), ("S", [some (Res.cand "Z")])]).2 "S"
      = excLookup [("R", ([] : List Item)), ("S", [some (Res.cand "Z")])] "S" :=
  (winner_for_role_exclusion_mutation "R" exhaustData 5
    [("R", []), ("S", [some (Res.cand "Z")])]).1.2 "S" (by decide)

/-! ### C2: exhausted round loop -/

/-- C2: on `exhaustData` with one registered exclusion list for "R", round 1
(A = 2, B = 2, C = 1 of 5, threshold 2.5) has no exact tie and no majority,
C is eliminated, and the loop bound (maximal rank present = 1) is reached:
`winner_for_role` falls off the end of its round loop and returns Python
`None` — there is no plurality-fallback return in the code. -/
theorem winner_for_role_exhausted_rounds_none :
    winner_for_role "R" exhaustData 5 [("R", [])]
      = (.ok none, [("R", [some (Res.cand "C")])]) := by
  decide

/-! ### C4: state leak through the mutable default argument -/

/-- C4: two successive invocations of `find_winners` on the identical input
`leakParsed` differ.  The first run (fresh default dict) eliminates C in
round 1 and elects B in round 2, leaving `{"R": ["C"]}` in
`determine_winner`'s mutable default `excluded={}` dict; the second run
starts from that leaked state, so C's voter abstains in round 1 and the
run ends in a 2–2 exact tie between A and B instead. -/
theorem find_winners_second_invocation_differs :
    (find_winners [] 5 leakParsed [] [] 5).1 = some (.ok [("R", [some (Res.cand "B")])])
    ∧ (find_winners [] 5 leakParsed [] [] 5).2 = [("R", [some (Res.cand "C")])]
    ∧ (find_winners [("R", [some (Res.cand "C")])] 5 leakParsed [] [] 5).1
        = some (.ok [("R", [some (Res.tie ["A", "B"])])])
    ∧ (find_winners [] 5 leakParsed [] [] 5).1
        ≠ (find_winners ((find_winners [] 5 leakParsed [] [] 5).2) 5 leakParsed [] [] 5).1 := by
  refine ⟨by decide, by decide, by decide, by decide⟩

/-! ### C7: exact tie at the threshold -/

/-- C7: in any round of the round loop in which two or more candidates'
counts equal the majority threshold (half the round's counted votes),
`winner_for_role`'s loop immediately returns a `Tie` holding exactly those
candidates (in tabulation order), with no majority check, no elimination,
and no later round: the exclusion dictionary is returned untouched. -/
theorem run_rounds_exact_tie (role : String) (data : RoleData) (rows : Nat)
    (rnd : Nat) (rest : List Nat) (exc : ExcMap)
    (h2 : 2 ≤ ((tabulate data rows rnd (excLookup exc role)).filter
        (fun q => 2 * q.2 = sumVals (tabulate data rows rnd (excLookup exc role)))).length) :
    run_rounds role data rows (rnd :: rest) exc =
      (.ok (some (Res.tie (((tabulate data rows rnd (excLookup exc role)).filter
          (fun q => 2 * q.2 = sumVals (tabulate data rows rnd (excLookup exc role)))).map
            Prod.fst))), exc) := by
  have hdef : (dictGet exc role).getD [] = excLookup exc role := rfl
  rw [run_rounds, hdef]
  cases htv : tabulate data rows rnd (excLookup exc role) with
  | nil => rw [htv] at h2; simp at h2
  | cons p ps =>
    rw [htv] at h2
    dsimp only
    rw [if_pos]
    exact lt_of_lt_of_le (by omega) (le_of_eq (List.length_map _ _).symm)

/-- Concrete instantiation of `run_rounds_exact_tie`: two candidates at
1–1 of 2 votes produce `Tie(["T1", "T2"])` at once. -/
theorem run_rounds_exact_tie_witness :
    run_rounds "T" [("T1", [(1, [0])]), ("T2", [(1, [1])])] 2 [1] [("T", [])] =
      (.ok (some (Res.tie ["T1", "T2"])), [("T", [])]) := by
  have h := run_rounds_exact_tie "T" [("T1", [(1, [0])]), ("T2", [(1, [1])])] 2 1 [] [("T", [])]
    (by decide)
  exact h

/-! ### C1: the no-double-win fixed point -/

theorem dictGet_isSome_dictSet {α β : Type} [DecidableEq α] (d : List (α × β))
    (k k' : α) (v : β) (h : (dictGet d k').isSome) :
    (dictGet (dictSet d k v) k').isSome := by
  by_cases hk : k' = k
  · subst hk; rw [dictGet_dictSet_self]; rfl
  · rwa [dictGet_dictSet_other _ _ _ _ hk]

theorem wt_go_preserves_key (w : Winners) (all : List Item) :
    ∀ (items : List Item) (acc res : List (Item × List String)) (k : Item),
      wt_go w all items acc = .ok res → (dictGet acc k).isSome → (dictGet res k).isSome := by
  intro items
  induction items with
  | nil => intro acc res k h hk; rw [wt_go] at h; cases h; exact hk
  | cons n rest ih =>
    intro acc res k h hk
    rw [wt_go] at h
    by_cases hq : countItem n all > 1 ∧ n ≠ some (Res.cand "RON")
    · rw [if_pos hq] at h
      by_cases ht : isTieItem n
      · rw [if_pos ht] at h; cases h
      · rw [if_neg ht] at h
        exact ih _ res k h (dictGet_isSome_dictSet _ _ _ _ hk)
    · rw [if_neg hq] at h
      exact ih _ res k h hk

theorem wt_go_qualifying_key (w : Winners) (all : List Item) :
    ∀ (items : List Item) (acc res : List (Item × List String)),
      wt_go w all items acc = .ok res →
      ∀ n ∈ items, countItem n all > 1 → n ≠ some (Res.cand "RON") →
        (dictGet res n).isSome := by
  intro items
  induction items with
  | nil => intro acc res _ n hn; cases hn
  | cons m rest ih =>
    intro acc res h n hn hcount hron
    rw [wt_go] at h
    by_cases hq : countItem m all > 1 ∧ m ≠ some (Res.cand "RON")
    · rw [if_pos hq] at h
      by_cases ht : isTieItem m
      · rw [if_pos ht] at h; cases h
      · rw [if_neg ht] at h
        rcases List.mem_cons.1 hn with hnm | hmem
        · subst hnm
          exact wt_go_preserves_key w all rest _ res n h
            (by rw [dictGet_dictSet_self]; rfl)
        · exact ih _ res h n hmem hcount hron
    · rw [if_neg hq] at h
      rcases List.mem_cons.1 hn with hnm | hmem
      · subst hnm
        exact absurd ⟨hcount, hron⟩ hq
      · exact ih _ res h n hmem hcount hron

theorem countItem_pos_mem (x : Item) : ∀ l : List Item, 0 < countItem x l → x ∈ l := by
  intro l
  induction l with
  | nil => intro h; simp [countItem] at h
  | cons y rest ih =>
    intro h
    rw [countItem] at h
    by_cases hy : y = x
    · subst hy; exact List.mem_cons_self _ _
    · rw [if_neg hy] at h
      exact List.mem_cons_of_mem _ (ih (by omega))

theorem wins_twice_ok_nil_count (w : Winners) (h : wins_twice_helper w = .ok []) :
    ∀ it : Item, it ≠ some (Res.cand "RON") → countItem it (allWinners w) ≤ 1 := by
  intro it hne
  by_contra hgt
  have hcount : 1 < countItem it (allWinners w) := by omega
  have hmem : it ∈ allWinners w := countItem_pos_mem it _ (by omega)
  have := wt_go_qualifying_key w (allWinners w) (allWinners w) [] [] h it hmem hcount hne
  simp [dictGet] at this

theorem find_winners_aux_ok_fixed (parsed : Parsed) (fc : List (String × String))
    (extra : List (String × Nat)) (rows : Nat) :
    ∀ (fuel : Nat) (w res : Winners),
      find_winners_aux parsed fc extra rows fuel w = some (.ok res) →
      wins_twice_helper res = .ok [] := by
  intro fuel
  induction fuel with
  | zero => intro w res h; rw [find_winners_aux] at h; cases h
  | succ m ih =>
    intro w res h
    rw [find_winners_aux] at h
    cases hw : wins_twice_helper w with
    | error e => rw [hw] at h; cases h
    | ok inv =>
      rw [hw] at h
      cases inv with
      | nil =>
        cases h
        exact hw
      | cons i is =>
        dsimp only at h
        cases hb : build_excluded (i :: is) fc with
        | error e => rw [hb] at h; cases h
        | ok exc =>
          rw [hb] at h
          dsimp only at h
          cases hd : determine_winner parsed extra rows exc with
          | mk r exc1 =>
            rw [hd] at h
            cases r with
            | error e => cases h
            | ok w1 => exact ih w1 res h

/-- C1 (amended): whenever `find_winners` terminates normally, no non-`"RON"`
candidate occurs more than once as a plain (non-tie) outcome across all
roles and seats of the returned assignment — the loop guard
`wins_twice_helper` is empty at exit.  Candidates that appear only inside a
`Tie` marker are not covered: the conflict detector compares items by
equality and never looks inside a `Tie` (see the counterexample). -/
theorem find_winners_no_plain_double_winner (D : ExcMap) (fuel : Nat)
    (parsed : Parsed) (fc : List (String × String)) (extra : List (String × Nat))
    (rows : Nat) (w : Winners)
    (h : (find_winners D fuel parsed fc extra rows).1 = some (.ok w)) :
    ∀ c : String, c ≠ "RON" → countItem (some (Res.cand c)) (allWinners w) ≤ 1 := by
  intro c hc
  rw [find_winners.eq_def] at h
  cases hd : determine_winner parsed extra rows D with
  | mk r D1 =>
    rw [hd] at h
    cases r with
    | error e => cases h
    | ok w0 =>
      dsimp only at h
      have hfix := find_winners_aux_ok_fixed parsed fc extra rows fuel w0 w h
      exact wins_twice_ok_nil_count w hfix (some (Res.cand c)) (by simp [hc])

/-- Concrete instantiation of `find_winners_no_plain_double_winner` on the
`tieParsed` run. -/
theorem find_winners_no_plain_double_winner_witness :
    countItem (some (Res.cand "X"))
      (allWinners [("Role1", [some (Res.tie ["X", "Y"])]), ("Role2", [some (Res.cand "X")])]) ≤ 1 :=
  find_winners_no_plain_double_winner [] 3 tieParsed [] [] 2
    [("Role1", [some (Res.tie ["X", "Y"])]), ("Role2", [some (Res.cand "X")])]
    (by decide) "X" (by decide)

/-- C1 (counterexample to the claim as stated): on `tieParsed`,
`find_winners` terminates normally, yet the non-`"RON"` candidate X is a
winner of Role2 and also appears inside the `Tie` outcome of Role1, so X
is assigned under two roles once tie-marker contents are counted (as the
claim requires). -/
theorem tie_member_double_win_cex :
    (find_winners [] 3 tieParsed [] [] 2).1 =
      some (.ok [("Role1", [some (Res.tie ["X", "Y"])]), ("Role2", [some (Res.cand "X")])])
    ∧ "X" ≠ "RON"
    ∧ (rolesMentioning
        [("Role1", [some (Res.tie ["X", "Y"])]), ("Role2", [some (Res.cand "X")])] "X").length = 2 := by
  refine ⟨by decide, by decide, by decide⟩

/-! ### C5: failure modes of the round loop -/

theorem run_rounds_error_cases (role : String) (data : RoleData) (rows : Nat) :
    ∀ (rounds : List Nat) (exc : ExcMap),
      (∃ v, (run_rounds role data rows rounds exc).1 = .ok v)
      ∨ (run_rounds role data rows rounds exc).1 =
          .error (.valueError "max() arg is an empty sequence")
      ∨ (run_rounds role data rows rounds exc).1 = .error (.keyError role) := by
  intro rounds
  induction rounds with
  | nil => intro exc; exact Or.inl ⟨none, rfl⟩
  | cons rnd rest ih =>
    intro exc
    rw [run_rounds]
    cases htv : tabulate data rows rnd ((dictGet exc role).getD []) with
    | nil => exact Or.inr (Or.inl rfl)
    | cons p ps =>
      dsimp only
      split
      · exact Or.inl ⟨_, rfl⟩
      · split
        · exact Or.inl ⟨_, rfl⟩
        · cases hd : dictGet exc role with
          | none => exact Or.inr (Or.inr rfl)
          | some lst => exact ih _

/-- C5 (amended): `winner_for_role` (over role data with distinct candidate
names, as Python dict keys are) can fail in exactly two ways — the
`ValueError` of `max()` on an empty tabulation (a round that counts zero
votes) and the `KeyError` of `excluded[role].append(...)` when the role is
absent from the exclusion dictionary at elimination time; on every other
input it returns a value.  The claim's "never fails" is refuted by
`winner_for_role_can_fail`. -/
theorem winner_for_role_error_classification (role : String) (data : RoleData)
    (rows : Nat) (exc : ExcMap) (hd : (data.map Prod.fst).Nodup) :
    (∃ v, (winner_for_role role data rows exc).1 = .ok v)
    ∨ (winner_for_role role data rows exc).1 =
        .error (.valueError "max() arg is an empty sequence")
    ∨ (winner_for_role role data rows exc).1 = .error (.keyError role) := by
  rw [winner_for_role.eq_def]
  dsimp only
  split
  · exact Or.inl ⟨_, rfl⟩
  · split
    · split
      · next hfe =>
        exfalso
        rename_i hne h1
        have hsub : (data.map (fun p => (some (Res.cand p.1) : Item))) ⊆
            (dictGet exc role).getD [] := by
          intro x hx
          rw [List.mem_map] at hx
          obtain ⟨p, hp, rfl⟩ := hx
          have := List.filter_eq_nil_iff.1 hfe p hp
          simpa using this
        have hnod : (data.map (fun p => (some (Res.cand p.1) : Item))).Nodup := by
          have : data.map (fun p => (some (Res.cand p.1) : Item)) =
              (data.map Prod.fst).map (fun s => (some (Res.cand s) : Item)) := by
            rw [List.map_map]; rfl
          rw [this]
          exact hd.map (fun a b hab => by simpa using hab)
        have hle := (List.subperm_of_subset hnod hsub).length_le
        rw [List.length_map] at hle
        omega
      · exact Or.inl ⟨_, rfl⟩
    · cases data with
      | nil => exact Or.inr (Or.inl rfl)
      | cons q qs => exact run_rounds_error_cases role (q :: qs) rows _ _

/-- Concrete instantiation of `winner_for_role_error_classification` on an
input where the function succeeds. -/
theorem winner_for_role_error_classification_witness :
    (∃ v, (winner_for_role "R" [("A", [(1, [0])])] 1 []).1 = .ok v)
    ∨ (winner_for_role "R" [("A", [(1, [0])])] 1 []).1 =
        .error (.valueError "max() arg is an empty sequence")
    ∨ (winner_for_role "R" [("A", [(1, [0])])] 1 []).1 = .error (.keyError "R") :=
  winner_for_role_error_classification "R" [("A", [(1, [0])])] 1 [] (by decide)

/-- C5 (counterexample to the claim as stated): `winner_for_role` does fail
on well-formed data.  With candidate A excluded and B, C ranked only at
rank 2, round 1 counts zero votes and Python's `max()` raises `ValueError`;
and when an elimination occurs while the role key is absent from the
exclusion dictionary, `excluded[role].append(...)` raises `KeyError`. -/
theorem winner_for_role_can_fail :
    (winner_for_role "R" [("A", [(1, [0])]), ("B", [(2, [0])]), ("C", [(2, [0])])] 1
        [("R", [some (Res.cand "A")])]).1
      = .error (.valueError "max() arg is an empty sequence")
    ∧ (winner_for_role "R" [("A", [(1, [0])]), ("B", [(1, [1])]), ("C", [(1, [2])])] 3 []).1
      = .error (.keyError "R") := by
  refine ⟨by decide, by decide⟩

/-! ### C6: the missing-preference error -/

theorem be_go_error_shape (fc : List (String × String)) :
    ∀ (invalid : List (Item × List String)) (exc : ExcMap) (e : PyErr),
      be_go fc invalid exc = .error e →
      ∃ p ∈ invalid, itemKeyInFc fc p.1 = none
        ∧ e = .valueError ("Role " ++ itemRepr p.1 ++ " not found in first_choices.txt.") := by
  intro invalid
  induction invalid with
  | nil => intro exc e h; rw [be_go] at h; cases h
  | cons q rest ih =>
    intro exc e h
    obtain ⟨name, roles⟩ := q
    rw [be_go] at h
    cases hk : itemKeyInFc fc name with
    | none =>
      rw [hk] at h
      cases h
      exact ⟨(name, roles), List.mem_cons_self _ _, hk, rfl⟩
    | some first_choice =>
      rw [hk] at h
      dsimp only at h
      obtain ⟨p, hp, h1, h2⟩ := ih _ e h
      exact ⟨p, List.mem_cons_of_mem _ hp, h1, h2⟩

theorem be_go_missing_error (fc : List (String × String)) :
    ∀ (invalid : List (Item × List String)) (exc : ExcMap),
      (∃ p ∈ invalid, itemKeyInFc fc p.1 = none) →
      ∃ e, be_go fc invalid exc = .error e := by
  intro invalid
  induction invalid with
  | nil =>
    intro exc h
    obtain ⟨p, hp, _⟩ := h
    cases hp
  | cons q rest ih =>
    intro exc h
    obtain ⟨p, hp, hmiss⟩ := h
    obtain ⟨name, roles⟩ := q
    rw [be_go]
    cases hk : itemKeyInFc fc name with
    | none => exact ⟨_, rfl⟩
    | some f1 =>
      dsimp only
      apply ih
      rcases List.mem_cons.1 hp with hpq | hmem
      · rw [hpq] at hmiss
        rw [hmiss] at hk
        cases hk
      · exact ⟨p, hmem, hmiss⟩

theorem find_winners_aux_build_error (parsed : Parsed) (fc : List (String × String))
    (extra : List (String × Nat)) (rows fuel : Nat) (w : Winners)
    (i : Item × List String) (is : List (Item × List String)) (e : PyErr)
    (hw : wins_twice_helper w = .ok (i :: is))
    (hb : build_excluded (i :: is) fc = .error e) :
    find_winners_aux parsed fc extra rows (fuel + 1) w = some (.error e) := by
  rw [find_winners_aux, hw]
  dsimp only
  rw [hb]

/-- C6 (amended): during a conflict-resolution pass with a nonempty
conflict map, `find_winners` raises an error exactly when some conflicted
candidate is absent from the first-choice table; the raised error is the
`ValueError` `"Role <name> not found in first_choices.txt."`, which names
the candidate but not the conflicted roles (the roles are only written to
the log — see the counterexample), and it propagates out of
`find_winners`, aborting the run rather than skipping the candidate. -/
theorem find_winners_missing_first_choice (parsed : Parsed)
    (fc : List (String × String)) (extra : List (String × Nat)) (rows fuel : Nat)
    (w : Winners) (i : Item × List String) (is : List (Item × List String))
    (hw : wins_twice_helper w = .ok (i :: is)) :
    ((∃ e, build_excluded (i :: is) fc = .error e)
        ↔ ∃ p ∈ i :: is, itemKeyInFc fc p.1 = none)
    ∧ ∀ e, build_excluded (i :: is) fc = .error e →
        find_winners_aux parsed fc extra rows (fuel + 1) w = some (.error e)
        ∧ ∃ p ∈ i :: is, itemKeyInFc fc p.1 = none
            ∧ e = .valueError ("Role " ++ itemRepr p.1 ++ " not found in first_choices.txt.") := by
  constructor
  · constructor
    · rintro ⟨e, he⟩
      obtain ⟨p, hp, h1, _⟩ := be_go_error_shape fc (i :: is) [] e he
      exact ⟨p, hp, h1⟩
    · intro hex
      exact be_go_missing_error fc (i :: is) [] hex
  · intro e he
    refine ⟨find_winners_aux_build_error parsed fc extra rows fuel w i is e hw he, ?_⟩
    exact be_go_error_shape fc (i :: is) [] e he

/-- Concrete instantiation of `find_winners_missing_first_choice`: with Sam
winning both P and S and an empty first-choice table, the loop raises the
`ValueError` naming Sam. -/
theorem find_winners_missing_first_choice_witness :
    find_winners_aux [] [] [] 0 1 [("P", [some (Res.cand "Sam")]), ("S", [some (Res.cand "Sam")])]
      = some (.error (.valueError "Role Sam not found in first_choices.txt.")) :=
  ((find_winners_missing_first_choice [] [] [] 0 0
      [("P", [some (Res.cand "Sam")]), ("S", [some (Res.cand "Sam")])]
      (some (Res.cand "Sam"), ["P", "S"]) [] (by decide)).2
    (.valueError "Role Sam not found in first_choices.txt.") (by decide)).1

/-- C6 (counterexample to the claim as stated): on `samParsed`, the run
aborts with `ValueError("Role Sam not found in first_choices.txt.")` — the
message names the candidate but reports neither of the conflicted roles
"President" and "Secretary", contradicting the claim that the raised error
reports which roles are involved. -/
theorem missing_first_choice_error_omits_roles :
    (find_winners [] 5 samParsed [] [] 1).1
      = some (.error (.valueError "Role Sam not found in first_choices.txt."))
    ∧ strMentions "Role Sam not found in first_choices.txt." "Sam" = true
    ∧ strMentions "Role Sam not found in first_choices.txt." "President" = false
    ∧ strMentions "Role Sam not found in first_choices.txt." "Secretary" = false := by
  refine ⟨by decide, by decide, by decide, by decide⟩

/-! ### C8: the degenerate zero/one-candidate cases -/

theorem excluded_filter_length (data : RoleData) (excList : List Item)
    (hd : (data.map Prod.fst).Nodup) (he : excList.Nodup)
    (hsub : ∀ x ∈ excList, ∃ n, x = some (Res.cand n) ∧ n ∈ data.map Prod.fst) :
    (data.filter (fun p => decide (some (Res.cand p.1) ∈ excList))).length = excList.length := by
  have hperm : List.Perm
      ((data.filter (fun p => decide (some (Res.cand p.1) ∈ excList))).map
        (fun p => (some (Res.cand p.1) : Item))) excList := by
    apply (List.perm_ext_iff_of_nodup ?_ he).2
    · intro x
      constructor
      · intro hx
        rw [List.mem_map] at hx
        obtain ⟨p, hp, rfl⟩ := hx
        rw [List.mem_filter] at hp
        simpa using hp.2
      · intro hx
        obtain ⟨n, rfl, hn⟩ := hsub x hx
        rw [List.mem_map] at hn
        obtain ⟨p, hp, hp1⟩ := hn
        rw [List.mem_map]
        refine ⟨p, ?_, by rw [hp1]⟩
        rw [List.mem_filter]
        exact ⟨hp, by simp [hp1, hx]⟩
    · have hsubl : List.Sublist
          ((data.filter (fun p => decide (some (Res.cand p.1) ∈ excList))).map Prod.fst)
          (data.map Prod.fst) := (List.filter_sublist data).map Prod.fst
      have hnd : ((data.filter (fun p => decide (some (Res.cand p.1) ∈ excList))).map
          Prod.fst).Nodup := hd.sublist hsubl
      have : (data.filter (fun p => decide (some (Res.cand p.1) ∈ excList))).map
          (fun p => (some (Res.cand p.1) : Item)) =
          ((data.filter (fun p => decide (some (Res.cand p.1) ∈ excList))).map
            Prod.fst).map (fun s => (some (Res.cand s) : Item)) := by
        rw [List.map_map]; rfl
      rw [this]
      exact hnd.map (fun a b hab => by simpa using hab)
  have := hperm.length_eq
  rwa [List.length_map] at this

theorem eligible_length_split (data : RoleData) (excList : List Item)
    (hd : (data.map Prod.fst).Nodup) (he : excList.Nodup)
    (hsub : ∀ x ∈ excList, ∃ n, x = some (Res.cand n) ∧ n ∈ data.map Prod.fst) :
    data.length = (eligibleCands data excList).length + excList.length := by
  have hsplit := List.length_eq_length_filter_add
    (l := data) (fun p => decide (some (Res.cand p.1) ∉ excList))
  have hcompl : data.filter (fun p => !(decide (some (Res.cand p.1) ∉ excList))) =
      data.filter (fun p => decide (some (Res.cand p.1) ∈ excList)) := by
    apply List.filter_congr
    intro p _
    by_cases hp : some (Res.cand p.1) ∈ excList <;> simp [hp]
  rw [hcompl, excluded_filter_length data excList hd he hsub] at hsplit
  exact hsplit

/-- C8 (amended): provided the role's exclusion list is duplicate-free and
each of its entries is a (plain) candidate of the role — so that
`len(data) - len(excluded[role])` really is the eligible-candidate count —
`winner_for_role` returns `"RON"` when no candidate is eligible and the
sole eligible candidate when exactly one is, in both cases without
tabulating any round, without touching the exclusion dictionary, and
without an error.  Without that proviso the `len`-difference arithmetic
miscounts (see the counterexample). -/
theorem winner_for_role_default_cases (role : String) (data : RoleData)
    (rows : Nat) (exc : ExcMap)
    (hd : (data.map Prod.fst).Nodup) (he : (excLookup exc role).Nodup)
    (hsub : ∀ x ∈ excLookup exc role,
      ∃ n, x = some (Res.cand n) ∧ n ∈ data.map Prod.fst) :
    (eligibleCands data (excLookup exc role) = [] →
      winner_for_role role data rows exc = (.ok (some (Res.cand "RON")), exc))
    ∧ ∀ p, eligibleCands data (excLookup exc role) = [p] →
      winner_for_role role data rows exc = (.ok (some (Res.cand p.1)), exc) := by
  have hsplit := eligible_length_split data (excLookup exc role) hd he hsub
  have hexc : ((dictGet exc role).getD [] : List Item) = excLookup exc role := rfl
  constructor
  · intro h0
    rw [h0] at hsplit
    rw [winner_for_role.eq_def]
    dsimp only
    rw [if_pos]
    have hlen : ((dictGet exc role).getD [] : List Item).length =
        (excLookup exc role).length := rfl
    simp at hsplit
    omega
  · intro p hp
    rw [hp] at hsplit
    have hfilter : data.filter
        (fun q => decide (some (Res.cand q.1) ∉ (dictGet exc role).getD [])) = [p] := hp
    rw [winner_for_role.eq_def]
    dsimp only
    have hlen : ((dictGet exc role).getD [] : List Item).length =
        (excLookup exc role).length := rfl
    rw [if_neg, if_pos]
    · rw [hfilter]
    · simp at hsplit
      omega
    · simp at hsplit
      omega

/-- Concrete instantiation of `winner_for_role_default_cases`: a role with
the single candidate A and no exclusions elects A without any round. -/
theorem winner_for_role_default_cases_witness :
    winner_for_role "R" [("A", [(1, [0])])] 1 [] = (.ok (some (Res.cand "A")), []) :=
  (winner_for_role_default_cases "R" [("A", [(1, [0])])] 1 [] (by decide) (by decide)
      (by intro x hx; simp [excLookup, dictGet] at hx)).2
    ("A", [(1, [0])]) (by decide)

/-- C8 (counterexample to the claim as stated): with the duplicate
exclusion list `["B", "B"]` for a two-candidate role, exactly one candidate
(A) is eligible, yet `len(data) - len(excluded[role])` is `0` and
`winner_for_role` returns `"RON"` instead of the sole eligible candidate
A — the degenerate-case rule is keyed to the `len` difference, not to the
eligible-candidate count the claim speaks about. -/
theorem default_case_miscounts_duplicate_exclusions :
    (winner_for_role "R" [("A", [(1, [0])]), ("B", [(1, [1])])] 2
        [("R", [some (Res.cand "B"), some (Res.cand "B")])]).1
      = .ok (some (Res.cand "RON"))
    ∧ eligibleCands [("A", [(1, [0])]), ("B", [(1, [1])])]
        [some (Res.cand "B"), some (Res.cand "B")] = [("A", [(1, [0])])]
    ∧ (some (Res.cand "RON") : Item) ≠ some (Res.cand "A") := by
  refine ⟨by decide, by decide, by decide⟩

/-! ### C9: correctness of the voter tabulation -/

theorem gfchChoices_mem (voter round : Nat) (votes : RoleData) (excluded : List Item)
    (n : String) (r : Nat) :
    (n, r) ∈ gfchChoices voter round votes excluded ↔
      eligVote votes excluded voter round n r := by
  rw [gfchChoices, List.mem_flatten, eligVote]
  constructor
  · rintro ⟨l, hl, hnl⟩
    rw [List.mem_map] at hl
    obtain ⟨rr, hrr, rfl⟩ := hl
    rw [List.mem_filterMap] at hnl
    obtain ⟨p, hp, hfp⟩ := hnl
    rw [List.mem_filter] at hp
    obtain ⟨hpv, hpe⟩ := hp
    cases hg : dictGet p.2 rr with
    | none => rw [hg] at hfp; cases hfp
    | some vs =>
      rw [hg] at hfp
      dsimp only at hfp
      by_cases hv : voter ∈ vs
      · rw [if_pos hv] at hfp
        have hp1 : p.1 = n := by injection hfp with h1; exact (Prod.mk.injEq _ _ _ _ ▸ h1).1
        have hr2 : rr = r := by injection hfp with h1; exact (Prod.mk.injEq _ _ _ _ ▸ h1).2
        subst hr2
        rw [List.mem_range'_1] at hrr
        refine ⟨hrr.1, by omega, by rw [← hp1]; simpa using hpe, p.2, ?_, vs, hg, hv⟩
        rw [← hp1]
        exact hpv
      · rw [if_neg hv] at hfp; cases hfp
  · rintro ⟨h1, h2, hnex, fields, hmem, vs, hget, hv⟩
    refine ⟨(votes.filter (fun p => decide (some (Res.cand p.1) ∉ excluded))).filterMap
      (fun p => match dictGet p.2 r with
        | some voters => if voter ∈ voters then some (p.1, r) else none
        | none => none), ?_, ?_⟩
    · rw [List.mem_map]
      exact ⟨r, by rw [List.mem_range'_1]; omega, rfl⟩
    · rw [List.mem_filterMap]
      refine ⟨(n, fields), ?_, ?_⟩
      · rw [List.mem_filter]
        exact ⟨hmem, by simpa using hnex⟩
      · dsimp only
        rw [hget]
        dsimp only
        rw [if_pos hv]

theorem minFold_mem : ∀ (cs : List (String × Nat)) (c : String × Nat),
    cs.foldl (fun a x => if x.2 < a.2 then x else a) c ∈ c :: cs := by
  intro cs
  induction cs with
  | nil => intro c; simp
  | cons d ds ih =>
    intro c
    rw [List.foldl_cons]
    by_cases h : d.2 < c.2
    · rw [if_pos h]
      rcases List.mem_cons.1 (ih d) with h1 | h1
      · rw [h1]; exact List.mem_cons_of_mem _ (List.mem_cons_self _ _)
      · exact List.mem_cons_of_mem _ (List.mem_cons_of_mem _ h1)
    · rw [if_neg h]
      rcases List.mem_cons.1 (ih c) with h1 | h1
      · rw [h1]; exact List.mem_cons_self _ _
      · exact List.mem_cons_of_mem _ (List.mem_cons_of_mem _ h1)

theorem minFold_le : ∀ (cs : List (String × Nat)) (c : String × Nat),
    ∀ x ∈ c :: cs, (cs.foldl (fun a b => if b.2 < a.2 then b else a) c).2 ≤ x.2 := by
  intro cs
  induction cs with
  | nil =>
    intro c x hx
    rcases List.mem_cons.1 hx with h | h
    · rw [h]; simp
    · cases h
  | cons d ds ih =>
    intro c x hx
    rw [List.foldl_cons]
    have hstart : (if d.2 < c.2 then d else c).2 ≤ c.2 ∧ (if d.2 < c.2 then d else c).2 ≤ d.2 := by
      by_cases h : d.2 < c.2
      · rw [if_pos h]; omega
      · rw [if_neg h]; omega
    rcases List.mem_cons.1 hx with h | h
    · rw [h]
      exact le_trans (ih _ _ (List.mem_cons_self _ _)) hstart.1
    · rcases List.mem_cons.1 h with h1 | h1
      · rw [h1]
        exact le_trans (ih _ _ (List.mem_cons_self _ _)) hstart.2
      · exact ih _ x (List.mem_cons_of_mem _ h1)

theorem dictGet_dictIncr (d : List (String × Nat)) (k c : String) :
    (dictGet (dictIncr d k) c).getD 0 =
      (dictGet d c).getD 0 + (if c = k then 1 else 0) := by
  induction d with
  | nil =>
    by_cases h : c = k
    · subst h; simp [dictIncr, dictGet]
    · have h' : ¬ k = c := fun hh => h hh.symm
      simp [dictIncr, dictGet, h, h']
  | cons p rest ih =>
    obtain ⟨k1, v1⟩ := p
    by_cases h1 : k1 = k
    · subst h1
      by_cases h2 : k1 = c
      · subst h2; simp [dictIncr, dictGet]
      · have h2' : ¬ c = k1 := fun hh => h2 hh.symm
        simp [dictIncr, dictGet, h2, h2']
    · by_cases h2 : k1 = c
      · subst h2
        have h1' : ¬ k = k1 := fun hh => h1 hh.symm
        simp [dictIncr, dictGet, h1, h1', ih]
      · simp [dictIncr, dictGet, h1, h2, ih]

theorem sumVals_dictIncr (d : List (String × Nat)) (k : String) :
    sumVals (dictIncr d k) = sumVals d + 1 := by
  induction d with
  | nil => simp [dictIncr, sumVals]
  | cons p rest ih =>
    obtain ⟨k1, v1⟩ := p
    by_cases h : k1 = k
    · subst h; simp [dictIncr, sumVals]; omega
    · simp [dictIncr, sumVals, h, ih]; omega

theorem tabulate_step (data : RoleData) (rnd : Nat) (excluded : List Item) (m : Nat) :
    tabulate data (m + 1) rnd excluded =
      (match get_first_choice_helper m rnd data excluded with
        | none => tabulate data m rnd excluded
        | some fc => dictIncr (tabulate data m rnd excluded) fc) := by
  rw [tabulate, tabulate, List.range_succ, List.foldl_append]
  rfl

theorem tabulate_count (data : RoleData) (rnd : Nat) (excluded : List Item) :
    ∀ (rows : Nat) (c : String),
      (dictGet (tabulate data rows rnd excluded) c).getD 0 =
        ((List.range rows).filter (fun v =>
          decide (get_first_choice_helper v rnd data excluded = some c))).length := by
  intro rows
  induction rows with
  | zero => intro c; simp [tabulate, dictGet]
  | succ m ih =>
    intro c
    rw [tabulate_step, List.range_succ, List.filter_append, List.length_append]
    cases hg : get_first_choice_helper m rnd data excluded with
    | none =>
      rw [ih c]
      simp [hg]
    | some fc =>
      rw [dictGet_dictIncr, ih c]
      by_cases hc : c = fc
      · subst hc; simp [hg]
      · have hc' : ¬ fc = c := fun hh => hc hh.symm
        simp [hg, hc, hc']

theorem tabulate_total (data : RoleData) (rnd : Nat) (excluded : List Item) :
    ∀ rows : Nat, sumVals (tabulate data rows rnd excluded) =
      ((List.range rows).filter (fun v =>
        (get_first_choice_helper v rnd data excluded).isSome)).length := by
  intro rows
  induction rows with
  | zero => simp [tabulate, sumVals]
  | succ m ih =>
    rw [tabulate_step, List.range_succ, List.filter_append, List.length_append]
    cases hg : get_first_choice_helper m rnd data excluded with
    | none => rw [ih]; simp [hg]
    | some fc => rw [sumVals_dictIncr, ih]; simp [hg]

/-- C9: the tabulator is the claimed earliest-eligible-rank credit rule.
(1) `get_first_choice_helper` returns `None` exactly when the voter has no
non-excluded ranked candidate at any rank ≤ `round` (such a voter is
counted for nobody); (2) when the minimal eligible rank carries exactly one
candidate, that candidate is returned; (3) each candidate's round count is
exactly the number of voters whose first choice it is (so each voter is
credited to at most the one candidate `get_first_choice_helper` picks);
(4) the round total counts exactly the voters with some eligible choice. -/
theorem get_first_choice_tabulation_correct (voter round : Nat) (votes : RoleData)
    (excluded : List Item) (rows rnd : Nat) :
    (get_first_choice_helper voter round votes excluded = none ↔
      ∀ n r, ¬ eligVote votes excluded voter round n r)
    ∧ (∀ c r, eligVote votes excluded voter round c r →
        (∀ n r2, eligVote votes excluded voter round n r2 → r ≤ r2) →
        (∀ n, eligVote votes excluded voter round n r → n = c) →
        get_first_choice_helper voter round votes excluded = some c)
    ∧ (∀ c : String, (dictGet (tabulate votes rows rnd excluded) c).getD 0 =
        ((List.range rows).filter (fun v =>
          decide (get_first_choice_helper v rnd votes excluded = some c))).length)
    ∧ sumVals (tabulate votes rows rnd excluded) =
        ((List.range rows).filter (fun v =>
          (get_first_choice_helper v rnd votes excluded).isSome)).length := by
  refine ⟨?_, ?_, tabulate_count votes rnd excluded rows, tabulate_total votes rnd excluded rows⟩
  · have hnone : get_first_choice_helper voter round votes excluded = none ↔
        gfchChoices voter round votes excluded = [] := by
      rw [get_first_choice_helper]
      cases gfchChoices voter round votes excluded with
      | nil => simp
      | cons c cs => simp
    rw [hnone, List.eq_nil_iff_forall_not_mem]
    constructor
    · intro h n r he
      exact h (n, r) ((gfchChoices_mem voter round votes excluded n r).2 he)
    · intro h x hx
      exact h x.1 x.2 ((gfchChoices_mem voter round votes excluded x.1 x.2).1 (by simpa using hx))
  · intro c r helig hleast huniq
    have hcm : (c, r) ∈ gfchChoices voter round votes excluded :=
      (gfchChoices_mem voter round votes excluded c r).2 helig
    rw [get_first_choice_helper]
    cases hch : gfchChoices voter round votes excluded with
    | nil => rw [hch] at hcm; cases hcm
    | cons c0 cs =>
      dsimp only
      have hres_mem : cs.foldl (fun a x => if x.2 < a.2 then x else a) c0 ∈ c0 :: cs :=
        minFold_mem cs c0
      rw [← hch] at hres_mem
      have helig_res := (gfchChoices_mem voter round votes excluded _ _).1
        (by simpa using hres_mem)
      have h_le : (cs.foldl (fun a x => if x.2 < a.2 then x else a) c0).2 ≤ r := by
        have hcm2 : (c, r) ∈ c0 :: cs := by rw [← hch]; exact hcm
        exact minFold_le cs c0 (c, r) hcm2
      have h_ge : r ≤ (cs.foldl (fun a x => if x.2 < a.2 then x else a) c0).2 :=
        hleast _ _ helig_res
      have heq : (cs.foldl (fun a x => if x.2 < a.2 then x else a) c0).2 = r := by omega
      have := huniq (cs.foldl (fun a x => if x.2 < a.2 then x else a) c0).1 (heq ▸ helig_res)
      rw [this]

/-- Concrete instantiation of `get_first_choice_tabulation_correct`: voter 0
ranked A first and B second, so by round 2 the helper credits A (rank 1
beats rank 2). -/
theorem get_first_choice_tabulation_correct_witness :
    get_first_choice_helper 0 2 [("A", [(1, [0])]), ("B", [(2, [0])])] [] = some "A" :=
  (get_first_choice_tabulation_correct 0 2 [("A", [(1, [0])]), ("B", [(2, [0])])] [] 0 0).2.1
    "A" 1
    ⟨Nat.le_refl 1, by omega, by simp, [(1, [0])], by simp, [0], rfl, by simp⟩
    (fun n r2 h => h.1)
    (by
      intro n h
      obtain ⟨_, _, _, fields, hmem, vs, hget, _⟩ := h
      simp at hmem
      rcases hmem with ⟨hn, hf⟩ | ⟨hn, hf⟩
      · exact hn
      · subst hf
        simp [dictGet] at hget)
